import Mathlib

/-!
Verification of the robotray core against its design spec.

Shallow embedding of:
  * the persistent test-counter store
    (`load_test_counter` / `get_next_test_number`, robotray_dash_backup2feb.py),
  * the serial stage client (`SerialStage`, 550_app_fixed2.py / 550_app_v4.py),
  * the tray/serial device locator (`find_tray_port`),
  * the analyzer port scanners (`find_x550_port`, `X550Connection.connect`),
  * the combo-sequence orchestrator (`start_x550_combo_sequence_2`),
  * the `M114` position-response parser (`TrayConnection.get_position`).

Effectful Python code is modelled by explicit state passing plus event traces;
HTTP and serial I/O are modelled as environment functions supplied as inputs.
-/

/- ====================================================================
   Persistent counter store (robotray_dash_backup2feb.py, lines 45-124)
   ==================================================================== -/

/-- On-disk state of `.robotray_config.json` as far as the test counter
is concerned: the file may be absent, unparseable, or a parsed JSON
object whose `test_counter` key is optional. -/
inductive ConfigDisk where
  | absent
  | corrupt
  | valid (testCounter : Option Int)
  deriving DecidableEq, Repr

/-- `load_test_counter` (lines 45-56): starting from the in-memory
counter `prev` (module init sets it to 1), an absent file leaves the
counter unchanged, a parse failure resets it to 1, and a parsed config
yields `config.get('test_counter', 1)`. -/
def load_test_counter (prev : Int) : ConfigDisk → Int
  | .absent => prev
  | .corrupt => 1
  | .valid tc => tc.getD 1

/-- The counter value after process start: `TEST_COUNTER = 1` at module
load (line 32), then `load_test_counter()` runs at startup (line 2837). -/
def startup_counter (d : ConfigDisk) : Int :=
  load_test_counter 1 d

structure NextNumberResult where
  issued : Int
  counter : Int
  disk : ConfigDisk
  deriving DecidableEq, Repr

/-- Counter/persistence effect of `get_next_test_number` (lines 80-124):
`current = TEST_COUNTER`, `TEST_COUNTER += 1`, then (on a successful save)
the file is rewritten with `test_counter` set to the incremented value,
and `current` is returned. -/
def get_next_test_number (counter : Int) : NextNumberResult :=
  { issued := counter
    counter := counter + 1
    disk := .valid (some (counter + 1)) }

/-- The first test number issued after a process restart against disk
state `d`: restart = module init + `load_test_counter`, then one
`get_next_test_number` call. -/
def restart_issued (d : ConfigDisk) : Int :=
  (get_next_test_number (startup_counter d)).issued

/- ====================================================================
   Config save: write-temp / delete / move, with bounded retry
   (robotray_dash_backup2feb.py, lines 91-123)
   ==================================================================== -/

/-- Filesystem state relevant to the config save: contents of
`.robotray_config.json` and of `.robotray_config.json.tmp`, each either
absent (`none`) or a JSON object, modelled as its integer entries. -/
structure ConfigFS where
  config : Option (List (String × Int))
  tmp : Option (List (String × Int))
  deriving DecidableEq, Repr

/-- Python `config['test_counter'] = TEST_COUNTER` on a parsed dict. -/
def setKey (cfg : List (String × Int)) (k : String) (v : Int) : List (String × Int) :=
  (cfg.filter fun kv => kv.1 ≠ k) ++ [(k, v)]

/-- The successful-attempt body of the save loop (lines 93-113), as the
sequence of filesystem states after each mutating step:
1. read the config (corrupt/absent reads as `{}`), set `test_counter`;
2. write the JSON to the temp file;
3. `if os.path.exists(CONFIG_FILE): os.remove(CONFIG_FILE)`;
4. `shutil.move(temp_file, CONFIG_FILE)`. -/
def save_config_trace (fs : ConfigFS) (tc : Int) : List ConfigFS :=
  let content := setKey (fs.config.getD []) "test_counter" tc
  let fs1 : ConfigFS := { fs with tmp := some content }
  if fs.config.isSome then
    let fs2 : ConfigFS := { fs1 with config := none }
    let fs3 : ConfigFS := { config := some content, tmp := none }
    [fs1, fs2, fs3]
  else
    [fs1, { config := some content, tmp := none }]

/-- The retry loop (lines 88-122): `max_retries = 3`; attempt `i` either
raises (`fails i = true`) or succeeds and breaks.  Returns (number of
attempts performed, whether a save succeeded).  A final failure is only
logged: the function never raises. -/
def save_retry (fails : Nat → Bool) : Nat × Bool :=
  if fails 0 = false then (1, true)
  else if fails 1 = false then (2, true)
  else (3, fails 2 = false)

/- ====================================================================
   Serial stage client (550_app_fixed2.py lines 129-196,
   identically 550_app_v4.py lines 525-606)
   ==================================================================== -/

inductive Axis where
  | x | y | z
  deriving DecidableEq, Repr

/-- Observable events of a `SerialStage` method call: a mutation of one
of the tracked `self.x/self.y/self.z` fields, a serial write inside
`_send` (`self.ser.write` + `flush`), or the single `readline` with
which `_send` collects the firmware's response. -/
inductive StageEv where
  | assign (a : Axis) (v : Int)
  | write (cmd : String)
  | readLine
  deriving DecidableEq, Repr

/-- The tracked stage position, in µm (`self.x`, `self.y`, `self.z`;
the constructor initialises all three to 0). -/
structure StagePos where
  x : Int
  y : Int
  z : Int
  deriving DecidableEq, Repr

def stageInit : StagePos := ⟨0, 0, 0⟩

/-- `_send(cmd)`: write the command, then read one response line. -/
def send_events (cmd : String) : List StageEv :=
  [.write cmd, .readLine]

def pad3 (n : Nat) : String :=
  if n < 10 then "00" ++ toString n
  else if n < 100 then "0" ++ toString n
  else toString n

/-- Python `f"{um/1000:.3f}"` for a non-negative micrometre count:
millimetres with exactly three decimals. -/
def fmt3um (um : Int) : String :=
  toString (um / 1000) ++ "." ++ pad3 (um % 1000).toNat

/-- `goto_x` (550_app_fixed2.py lines 183-185): `self.x = max(0,
position_um)` and only then `self._send(f"G0 X {self.x/1000:.3f} F3000")`.
Returns the new state and the ordered event trace. -/
def goto_x (s : StagePos) (position_um : Int) : StagePos × List StageEv :=
  let x' := max 0 position_um
  ({ s with x := x' }, .assign .x x' :: send_events ("G0 X " ++ fmt3um x' ++ " F3000"))

/-- `goto_y` (lines 187-189). -/
def goto_y (s : StagePos) (position_um : Int) : StagePos × List StageEv :=
  let y' := max 0 position_um
  ({ s with y := y' }, .assign .y y' :: send_events ("G0 Y " ++ fmt3um y' ++ " F3000"))

/-- `goto_z` (lines 191-193); note the smaller feed rate F300. -/
def goto_z (s : StagePos) (position_um : Int) : StagePos × List StageEv :=
  let z' := max 0 position_um
  ({ s with z := z' }, .assign .z z' :: send_events ("G0 Z " ++ fmt3um z' ++ " F300"))

/-- `move_x`: relative move delegated to `goto_x(self.x + distance_um)`. -/
def move_x (s : StagePos) (distance_um : Int) : StagePos × List StageEv :=
  goto_x s (s.x + distance_um)

def move_y (s : StagePos) (distance_um : Int) : StagePos × List StageEv :=
  goto_y s (s.y + distance_um)

def move_z (s : StagePos) (distance_um : Int) : StagePos × List StageEv :=
  goto_z s (s.z + distance_um)

/-- `goto(pos)`: `goto_x(pos[0]); goto_y(pos[1]); goto_z(pos[2])`. -/
def goto_xyz (s : StagePos) (p : Int × Int × Int) : StagePos × List StageEv :=
  let (s1, e1) := goto_x s p.1
  let (s2, e2) := goto_y s1 p.2.1
  let (s3, e3) := goto_z s2 p.2.2
  (s3, e1 ++ e2 ++ e3)

/-- `move_home`: `G28`, then `goto(home_position)`. -/
def move_home (s : StagePos) (home : Int × Int × Int) : StagePos × List StageEv :=
  let (s', e) := goto_xyz s home
  (s', send_events "G28" ++ e)

/-- `auto_level`: `G29`, no position update. -/
def auto_level (s : StagePos) : StagePos × List StageEv :=
  (s, send_events "G29")

/-- The stage operations a caller can issue after construction. -/
inductive StageOp where
  | gotoX (p : Int) | gotoY (p : Int) | gotoZ (p : Int)
  | moveX (d : Int) | moveY (d : Int) | moveZ (d : Int)
  | gotoXYZ (p : Int × Int × Int)
  | moveHome (home : Int × Int × Int)
  | autoLevel
  deriving DecidableEq, Repr

def applyStageOp (s : StagePos) : StageOp → StagePos × List StageEv
  | .gotoX p => goto_x s p
  | .gotoY p => goto_y s p
  | .gotoZ p => goto_z s p
  | .moveX d => move_x s d
  | .moveY d => move_y s d
  | .moveZ d => move_z s d
  | .gotoXYZ p => goto_xyz s p
  | .moveHome h => move_home s h
  | .autoLevel => auto_level s

def runStageOps (s : StagePos) (ops : List StageOp) : StagePos :=
  ops.foldl (fun st op => (applyStageOp st op).1) s

def firstAssignIdx (tr : List StageEv) : Option Nat :=
  tr.findIdx? fun e => match e with | .assign _ _ => true | _ => false

def firstWriteIdx (tr : List StageEv) : Option Nat :=
  tr.findIdx? fun e => match e with | .write _ => true | _ => false

def nonnegPos (s : StagePos) : Prop :=
  0 ≤ s.x ∧ 0 ≤ s.y ∧ 0 ≤ s.z

lemma nonnegPos_apply {s : StagePos} (h : nonnegPos s) (op : StageOp) :
    nonnegPos (applyStageOp s op).1 := by
  obtain ⟨hx, hy, hz⟩ := h
  cases op <;>
    simp [applyStageOp, goto_x, goto_y, goto_z, move_x, move_y, move_z,
      goto_xyz, move_home, auto_level, nonnegPos] <;>
    constructor <;> try constructor
  all_goals first
    | exact le_max_left 0 _
    | assumption

lemma nonnegPos_run (s : StagePos) (h : nonnegPos s) (ops : List StageOp) :
    nonnegPos (runStageOps s ops) := by
  induction ops generalizing s with
  | nil => simpa [runStageOps] using h
  | cons op rest ih =>
      simpa [runStageOps] using ih _ (nonnegPos_apply h op)

/- ====================================================================
   Theorems: C1, C4, C5, C6
   ==================================================================== -/

/-- C1 counterexample: with a persisted counter value of 5, restarting
and issuing one test number produces 5, not 5 + 1 = 6 — the persisted
`test_counter` is the *next* number to issue, not the last one issued. -/
theorem c1_restart_counterexample :
    restart_issued (ConfigDisk.valid (some 5)) = 5 ∧
      restart_issued (ConfigDisk.valid (some 5)) ≠ 5 + 1 := by
  decide

/-- C1 amended: restarting the process with a previously persisted
counter value K and issuing one test number produces K (not K + 1); the
issue then persists K + 1, so a number issued before the restart is
never issued again. -/
theorem c1_restart_amended (K : Int) :
    restart_issued (ConfigDisk.valid (some K)) = K ∧
      (get_next_test_number (startup_counter (ConfigDisk.valid (some K)))).disk
        = ConfigDisk.valid (some (K + 1)) := by
  constructor <;>
    simp [restart_issued, get_next_test_number, startup_counter, load_test_counter]

/-- C4 counterexample: in the event trace of `goto_x` the assignment to
`self.x` is at index 0 and the serial write of the move command at
index 1 — the position field is mutated strictly before the command is
sent (and hence before any acknowledgement is read), refuting the claim
that the coordinate is updated only after the move is acknowledged. -/
theorem c4_update_before_send_counterexample :
    firstAssignIdx (goto_x stageInit 5).2 = some 0 ∧
      firstWriteIdx (goto_x stageInit 5).2 = some 1 := by
  constructor <;> rfl

/-- C4 amended: for every absolute move, the tracked coordinate is
clamped and assigned *before* the move command is written; `_send` then
writes the command and reads one response line, so the update is never
gated on the firmware's acknowledgement. -/
theorem c4_update_before_send_amended (s : StagePos) (p : Int) :
    (goto_x s p).2
        = [.assign .x (max 0 p), .write ("G0 X " ++ fmt3um (max 0 p) ++ " F3000"), .readLine] ∧
      (goto_x s p).1.x = max 0 p ∧
    (goto_y s p).2
        = [.assign .y (max 0 p), .write ("G0 Y " ++ fmt3um (max 0 p) ++ " F3000"), .readLine] ∧
      (goto_y s p).1.y = max 0 p ∧
    (goto_z s p).2
        = [.assign .z (max 0 p), .write ("G0 Z " ++ fmt3um (max 0 p) ++ " F300"), .readLine] ∧
      (goto_z s p).1.z = max 0 p := by
  refine ⟨rfl, rfl, rfl, rfl, rfl, rfl⟩

/-- C5 counterexample: starting from a filesystem where the config file
exists, the successful save path of `get_next_test_number` passes
through an intermediate state in which the config file is absent — the
code deletes the old file and only then moves the temp file over, so
the replace is not a single atomic rename step. -/
theorem c5_save_absence_counterexample :
    ¬ (∀ st ∈ save_config_trace ⟨some [("test_counter", 3)], none⟩ 4,
        st.config ≠ none) := by
  decide

/-- C5 amended: a save writes the full JSON to the temp file, then (when
the config file exists) deletes the config file and moves the temp file
over it; the final state holds exactly the updated JSON with no temp
file left, but between the delete and the move the config file is
absent while the full JSON sits in the temp file.  The write is retried
at most 3 times and a final failure is logged, not raised. -/
theorem c5_save_amended (fs : ConfigFS) (tc : Int) :
    (save_config_trace fs tc).getLast?
        = some ⟨some (setKey (fs.config.getD []) "test_counter" tc), none⟩ ∧
      (fs.config.isSome = true →
        ∃ st ∈ save_config_trace fs tc,
          st.config = none ∧ st.tmp = some (setKey (fs.config.getD []) "test_counter" tc)) ∧
      (∀ fails : Nat → Bool, (save_retry fails).1 ≤ 3) := by
  refine ⟨?_, ?_, ?_⟩
  · by_cases h : fs.config.isSome <;> simp [save_config_trace, h]
  · intro h
    refine ⟨{ config := none, tmp := some (setKey (fs.config.getD []) "test_counter" tc) }, ?_, rfl, rfl⟩
    simp [save_config_trace, h]
  · intro fails
    by_cases h0 : fails 0 <;> by_cases h1 : fails 1 <;>
      simp [save_retry, h0, h1]

/-- Witness for `c5_save_amended` at a concrete filesystem state. -/
theorem c5_save_amended_witness :
    (save_config_trace ⟨some [("test_counter", 3)], none⟩ 4).getLast?
        = some ⟨some (setKey ((⟨some [("test_counter", 3)], none⟩ : ConfigFS).config.getD []) "test_counter" 4), none⟩ ∧
      ((⟨some [("test_counter", 3)], none⟩ : ConfigFS).config.isSome = true →
        ∃ st ∈ save_config_trace ⟨some [("test_counter", 3)], none⟩ 4,
          st.config = none ∧
            st.tmp = some (setKey ((⟨some [("test_counter", 3)], none⟩ : ConfigFS).config.getD []) "test_counter" 4)) ∧
      (∀ fails : Nat → Bool, (save_retry fails).1 ≤ 3) :=
  c5_save_amended ⟨some [("test_counter", 3)], none⟩ 4

/-- C6: a negative absolute target on any axis is clamped to 0, and
starting from the freshly constructed stage (all coordinates 0), no
sequence of absolute or relative moves, homings or levelings ever makes
a tracked coordinate negative. -/
theorem c6_clamp_nonneg (s : StagePos) (p : Int) (hneg : p < 0) (ops : List StageOp) :
    (goto_x s p).1.x = 0 ∧ (goto_y s p).1.y = 0 ∧ (goto_z s p).1.z = 0 ∧
      (0 ≤ (runStageOps stageInit ops).x ∧
        0 ≤ (runStageOps stageInit ops).y ∧
        0 ≤ (runStageOps stageInit ops).z) := by
  have hmax : max 0 p = 0 := max_eq_left hneg.le
  refine ⟨?_, ?_, ?_, nonnegPos_run stageInit (by simp [stageInit, nonnegPos]) ops⟩ <;>
    simp [goto_x, goto_y, goto_z, hmax]

/-- Witness for `c6_clamp_nonneg`: target −5 on each axis from a state
with nonzero coordinates, and a concrete op sequence mixing negative
absolute and relative moves. -/
theorem c6_clamp_nonneg_witness :
    (goto_x ⟨7, 8, 9⟩ (-5)).1.x = 0 ∧ (goto_y ⟨7, 8, 9⟩ (-5)).1.y = 0 ∧
      (goto_z ⟨7, 8, 9⟩ (-5)).1.z = 0 ∧
      (0 ≤ (runStageOps stageInit [.gotoX (-3), .moveY (-10), .moveX 4, .moveX (-9)]).x ∧
        0 ≤ (runStageOps stageInit [.gotoX (-3), .moveY (-10), .moveX 4, .moveX (-9)]).y ∧
        0 ≤ (runStageOps stageInit [.gotoX (-3), .moveY (-10), .moveX 4, .moveX (-9)]).z) :=
  c6_clamp_nonneg ⟨7, 8, 9⟩ (-5) (by decide) [.gotoX (-3), .moveY (-10), .moveX 4, .moveX (-9)]

/- ====================================================================
   Tray serial-port locator (robotray_dash_backup2feb.py, lines 203-240)
   ==================================================================== -/

/-- One `serial.tools.list_ports` enumeration entry; `none` models a
missing/None attribute (`p.hwid or ""`, `getattr(p, ..., None)`). -/
structure PortEntry where
  device : String
  hwid : Option String
  description : Option String
  manufacturer : Option String
  serialNumber : Option String
  deriving DecidableEq, Repr

/-- Python `str.upper()` (ASCII case, as used on hwid/description). -/
def upperStr (s : String) : String := ⟨s.data.map Char.toUpper⟩

/-- Python substring test `needle in hay`. -/
def containsSub (hay needle : List Char) : Bool :=
  match hay with
  | [] => needle.isEmpty
  | _ :: t => needle.isPrefixOf hay || containsSub t needle

/-- Phase-2 test of `find_tray_port`: some configured VID:PID signature
occurs in the (uppercased) hardware id. -/
def hwMatch (preferVidpid : List String) (p : PortEntry) : Bool :=
  preferVidpid.any fun vp =>
    containsSub (upperStr (p.hwid.getD "")).data (upperStr vp).data

/-- Phase-3 test: some configured keyword occurs in the uppercased
description+manufacturer string. -/
def kwMatch (preferKeywords : List String) (p : PortEntry) : Bool :=
  preferKeywords.any fun kw =>
    containsSub (upperStr ((p.description.getD "") ++ " " ++ (p.manufacturer.getD ""))).data
      (upperStr kw).data

def default_prefer_vidpid : List String := ["1A86:7523", "10C4:EA60", "0403:6001"]

def default_prefer_keywords : List String :=
  ["CREALITY", "ENDER", "CH340", "CP210", "USB-SERIAL", "USB SERIAL", "UART"]

/-- `find_tray_port` (lines 203-240): (1) exact USB serial number when
configured and non-empty (Python truthiness), (2) first port whose hwid
contains a configured VID:PID, (3) first port whose description or
manufacturer contains a configured keyword, else `None`. -/
def find_tray_port (trayUsbSerial : Option String)
    (preferVidpid preferKeywords : List String) (ports : List PortEntry) : Option String :=
  let phase23 :=
    match ports.find? (hwMatch preferVidpid) with
    | some p => some p.device
    | none =>
      match ports.find? (kwMatch preferKeywords) with
      | some p => some p.device
      | none => none
  match trayUsbSerial with
  | some snr =>
    if snr = "" then phase23
    else
      match ports.find? (fun p => p.serialNumber == some snr) with
      | some p => some p.device
      | none => phase23
  | none => phase23

/- ====================================================================
   Standalone analyzer port scanner (robotray_dash_backup2feb.py,
   lines 184-196)
   ==================================================================== -/

/-- A raw HTTP response as the scanner sees it: status code and body
text.  An environment maps (port, path) to `none` (request raised) or a
response. -/
structure HttpResp where
  status : Nat
  body : String
  deriving DecidableEq, Repr

def x550_id_paths : List String := ["/api/v2/id", "/api/v1/id", "/api/id"]

/-- The acceptance test `find_x550_port` applies to a probe: the request
succeeded with status 200.  The body is never consulted. -/
def probe_ok_any_body (env : Nat → String → Option HttpResp) (port : Nat) : Bool :=
  x550_id_paths.any fun path => (env port path).map HttpResp.status == some 200

def scan_ports (startPort endPort : Nat) : List Nat :=
  List.range' startPort (endPort + 1 - startPort)

/-- `find_x550_port` (lines 184-196): scan `range(start_port,
end_port + 1)`; for each port try the three id paths; on the first
`status_code == 200` return the port's base URL (the path and body are
dropped). -/
def find_x550_port (env : Nat → String → Option HttpResp)
    (startPort endPort : Nat) : Option String :=
  ((scan_ports startPort endPort).find? (probe_ok_any_body env)).map
    fun port => "http://127.0.0.1:" ++ toString port

/- ====================================================================
   X550Connection.connect (robotray_dash_backup2feb.py, lines 373-409)
   ==================================================================== -/

/-- How a response body behaves under the JSON handling in
`X550Connection.connect`: parses to a JSON object with the given keys,
parses to a non-object, or fails to parse. -/
inductive JBody where
  | jobj (keys : List String)
  | jother
  | jbad
  deriving DecidableEq, Repr

structure IdResp where
  status : Nat
  body : JBody
  deriving DecidableEq, Repr

/-- The validation `connect` applies to a probe response: status 200,
body parses as a JSON object, and the object has a `family` or an
`apps` key. -/
def valid_id_resp (r : IdResp) : Bool :=
  r.status == 200 &&
    (match r.body with
     | .jobj keys => keys.contains "family" || keys.contains "apps"
     | .jother => false
     | .jbad => false)

def isValidAt (env : Nat → String → Option IdResp) (port : Nat) (path : String) : Bool :=
  match env port path with
  | some r => valid_id_resp r
  | none => false

/-- `ports = [8080] + [p for p in range(port_start, port_end + 1) if p != 8071]`
(line 375). -/
def x550_candidate_ports (portStart portEnd : Nat) : List Nat :=
  8080 :: (List.range' portStart (portEnd + 1 - portStart)).filter (fun p => p != 8071)

/-- `path.rsplit("/", 1)[0]`: everything before the last `/`, or the
whole string when there is none. -/
def rsplit_root (path : String) : String :=
  if '/' ∈ path.data then ⟨(((path.data.reverse).dropWhile fun c => c ≠ '/').drop 1).reverse⟩
  else path

/-- Inner loop of `connect` over the id paths of one port: returns the
`(base_url, api_root)` pair on the first valid response, plus the list
of probes attempted at this port (in order, including the successful
one). -/
def connect_paths (env : Nat → String → Option IdResp) (host : String) (port : Nat) :
    List String → Option (String × String) × List (Nat × String)
  | [] => (none, [])
  | path :: rest =>
    match env port path with
    | some r =>
      if valid_id_resp r then
        (some ("http://" ++ host ++ ":" ++ toString port, rsplit_root path), [(port, path)])
      else
        let (res, tr) := connect_paths env host port rest
        (res, (port, path) :: tr)
    | none =>
      let (res, tr) := connect_paths env host port rest
      (res, (port, path) :: tr)

/-- Outer loop of `connect` over the candidate ports: stops at the first
port whose path scan succeeds. -/
def connect_ports (env : Nat → String → Option IdResp) (host : String) :
    List Nat → Option (String × String) × List (Nat × String)
  | [] => (none, [])
  | port :: rest =>
    match connect_paths env host port x550_id_paths with
    | (some res, tr) => (some res, tr)
    | (none, tr) =>
      let (res, tr') := connect_ports env host rest
      (res, tr ++ tr')

/-- `X550Connection.connect`: result is `some (base_url, api_root)` on
success, `none` on exhaustion; also returns the full probe trace. -/
def X550_connect (env : Nat → String → Option IdResp) (host : String)
    (portStart portEnd : Nat) : Option (String × String) × List (Nat × String) :=
  connect_ports env host (x550_candidate_ports portStart portEnd)

lemma connect_paths_all_invalid (env : Nat → String → Option IdResp)
    (host : String) (port : Nat) (paths : List String)
    (h : ∀ path ∈ paths, isValidAt env port path = false) :
    connect_paths env host port paths = (none, paths.map fun path => (port, path)) := by
  induction paths with
  | nil => rfl
  | cons path rest ih =>
      have hhd := h path (List.mem_cons_self _ _)
      have hrest := ih fun pa hpa => h pa (List.mem_cons_of_mem _ hpa)
      cases henv : env port path with
      | none => simp [connect_paths, henv, hrest]
      | some r =>
          have hv : valid_id_resp r = false := by
            simpa [isValidAt, henv] using hhd
          simp [connect_paths, henv, hv, hrest]

lemma connect_paths_success (env : Nat → String → Option IdResp)
    (host : String) (port : Nat) (paths : List String) (hit : String)
    (h : paths.find? (isValidAt env port) = some hit) :
    connect_paths env host port paths
      = (some ("http://" ++ host ++ ":" ++ toString port, rsplit_root hit),
         (paths.takeWhile fun pa => !isValidAt env port pa).map (fun pa => (port, pa))
           ++ [(port, hit)]) := by
  induction paths with
  | nil => simp at h
  | cons path rest ih =>
      cases hv : isValidAt env port path with
      | true =>
          have hhit : hit = path := by
            rw [List.find?_cons_of_pos _ hv] at h
            exact (Option.some_inj.mp h).symm
          subst hhit
          cases henv : env port hit with
          | none => simp [isValidAt, henv] at hv
          | some r =>
              have hr : valid_id_resp r = true := by simpa [isValidAt, henv] using hv
              simp [connect_paths, henv, hr, List.takeWhile_cons, hv]
      | false =>
          have hfind : rest.find? (isValidAt env port) = some hit := by
            rw [List.find?_cons_of_neg _ (by simp [hv])] at h
            exact h
          have hrec := ih hfind
          cases henv : env port path with
          | none => simp [connect_paths, henv, hrec, List.takeWhile_cons, hv]
          | some r =>
              have hr : valid_id_resp r = false := by
                simpa [isValidAt, henv] using hv
              simp [connect_paths, henv, hr, hrec, List.takeWhile_cons, hv]

lemma connect_ports_first_valid (env : Nat → String → Option IdResp)
    (host : String) (cands : List Nat) (P : Nat) (hit : String)
    (hmem : P ∈ cands)
    (honly : ∀ q ∈ cands, q ≠ P → ∀ path ∈ x550_id_paths, isValidAt env q path = false)
    (hP : x550_id_paths.find? (isValidAt env P) = some hit) :
    connect_ports env host cands
      = (some ("http://" ++ host ++ ":" ++ toString P, rsplit_root hit),
         (cands.takeWhile fun q => q != P).flatMap
             (fun q => x550_id_paths.map fun pa => (q, pa))
           ++ ((x550_id_paths.takeWhile fun pa => !isValidAt env P pa).map (fun pa => (P, pa))
             ++ [(P, hit)])) := by
  induction cands with
  | nil => simp at hmem
  | cons q rest ih =>
      by_cases hq : q = P
      · subst hq
        have hsucc := connect_paths_success env host q x550_id_paths hit hP
        simp [connect_ports, hsucc, List.takeWhile_cons]
      · have hinv : ∀ pa ∈ x550_id_paths, isValidAt env q pa = false :=
          honly q (List.mem_cons_self _ _) hq
        have hfail := connect_paths_all_invalid env host q x550_id_paths hinv
        have hmem' : P ∈ rest := by
          rcases List.mem_cons.mp hmem with hcase | hcase
          · exact absurd hcase.symm hq
          · exact hcase
        have hrec := ih hmem' fun r hr hrP pa hpa =>
          honly r (List.mem_cons_of_mem _ hr) hrP pa hpa
        have hqb : (q != P) = true := by simp [hq]
        simp [connect_ports, hfail, hrec, List.takeWhile_cons, hqb, List.append_assoc]

/- ====================================================================
   Theorems: C8, C10, C9
   ==================================================================== -/

/-- C8: when no exact USB serial identity is in play, the locator
returns the device path of the first VID:PID-signature match, which is
signature-matched (so never a merely keyword-matched device); and when a
non-empty serial identity is supplied and present, its first match is
returned, taking precedence over both other phases. -/
theorem c8_locator_precedence (vps kws : List String) (ports : List PortEntry)
    (q r : PortEntry) (snr : String) (hs : snr ≠ "")
    (hq : ports.find? (hwMatch vps) = some q)
    (hr : ports.find? (fun p => p.serialNumber == some snr) = some r) :
    find_tray_port none vps kws ports = some q.device ∧
      hwMatch vps q = true ∧
      find_tray_port (some snr) vps kws ports = some r.device := by
  refine ⟨?_, List.find?_some hq, ?_⟩
  · simp [find_tray_port, hq]
  · simp [find_tray_port, hs, hr]

/-- Witness for `c8_locator_precedence`: a keyword-only CH340 clone is
enumerated first, a VID:PID 1A86:7523 device second, a device with USB
serial "SNR1" last; phase 2 picks the signature device over the earlier
keyword device, and a supplied serial picks the serial device over both. -/
theorem c8_locator_precedence_witness :
    find_tray_port none default_prefer_vidpid default_prefer_keywords
        [⟨"COM3", some "USB VID:PID=0000:0000", some "USB-SERIAL CH340", none, none⟩,
         ⟨"COM7", some "USB VID:PID=1A86:7523 SER=1", some "USB Serial", none, none⟩,
         ⟨"COM9", some "USB VID:PID=10C4:EA60", some "CP210x", none, some "SNR1"⟩]
        = some "COM7" ∧
      hwMatch default_prefer_vidpid
          ⟨"COM7", some "USB VID:PID=1A86:7523 SER=1", some "USB Serial", none, none⟩ = true ∧
      find_tray_port (some "SNR1") default_prefer_vidpid default_prefer_keywords
        [⟨"COM3", some "USB VID:PID=0000:0000", some "USB-SERIAL CH340", none, none⟩,
         ⟨"COM7", some "USB VID:PID=1A86:7523 SER=1", some "USB Serial", none, none⟩,
         ⟨"COM9", some "USB VID:PID=10C4:EA60", some "CP210x", none, some "SNR1"⟩]
        = some "COM9" :=
  c8_locator_precedence default_prefer_vidpid default_prefer_keywords _
    ⟨"COM7", some "USB VID:PID=1A86:7523 SER=1", some "USB Serial", none, none⟩
    ⟨"COM9", some "USB VID:PID=10C4:EA60", some "CP210x", none, some "SNR1"⟩
    "SNR1" (by decide) (by decide) (by decide)

/-- C10: the standalone scanner accepts any HTTP 200 at an id path
without inspecting the body — its result depends only on the status
map of the environment (no JSON parsing, no family/modes validation),
and the first port whose probe returns 200 is returned as a base URL. -/
theorem c10_scanner_ignores_body (env env' : Nat → String → Option HttpResp)
    (hstat : ∀ port path, (env port path).map HttpResp.status
      = (env' port path).map HttpResp.status)
    (sp ep P : Nat)
    (hP : (scan_ports sp ep).find? (probe_ok_any_body env) = some P) :
    find_x550_port env sp ep = find_x550_port env' sp ep ∧
      find_x550_port env sp ep = some ("http://127.0.0.1:" ++ toString P) ∧
      probe_ok_any_body env P = true := by
  have hpred : probe_ok_any_body env = probe_ok_any_body env' := by
    funext port
    simp [probe_ok_any_body, hstat]
  refine ⟨?_, ?_, List.find?_some hP⟩
  · simp [find_x550_port, hpred]
  · simp [find_x550_port, hP]

/-- Witness for `c10_scanner_ignores_body`: port 8072 answers 200 with a
non-JSON HTML body in one environment and a different body in the
other; the scan result is identical and accepts 8072. -/
theorem c10_scanner_ignores_body_witness :
    find_x550_port
        (fun port path => if port == 8072 && path == "/api/v1/id"
          then some ⟨200, "<html>not json</html>"⟩ else none) 8070 8075
      = find_x550_port
        (fun port path => if port == 8072 && path == "/api/v1/id"
          then some ⟨200, "completely different body"⟩ else none) 8070 8075 ∧
      find_x550_port
        (fun port path => if port == 8072 && path == "/api/v1/id"
          then some ⟨200, "<html>not json</html>"⟩ else none) 8070 8075
        = some ("http://127.0.0.1:" ++ toString 8072) ∧
      probe_ok_any_body
        (fun port path => if port == 8072 && path == "/api/v1/id"
          then some ⟨200, "<html>not json</html>"⟩ else none) 8072 = true :=
  c10_scanner_ignores_body _ _
    (fun port path => by
      by_cases h : port == 8072 && path == "/api/v1/id" <;> simp [h])
    8070 8075 8072 (by decide)

/-- C9: if exactly one candidate port answers an id path with HTTP 200
and a JSON object carrying a `family` or `apps` key, `connect` returns
that port's base URL with the matched path's root as api root, and the
probe trace stops at that success: it contains only the candidate ports
strictly before the successful one (each fully scanned) followed by the
successful port's probes up to and including the matching path. -/
theorem c9_connect_stops_at_valid (env : Nat → String → Option IdResp)
    (host : String) (portStart portEnd P : Nat) (hit : String)
    (hmem : P ∈ x550_candidate_ports portStart portEnd)
    (honly : ∀ q ∈ x550_candidate_ports portStart portEnd, q ≠ P →
      ∀ path ∈ x550_id_paths, isValidAt env q path = false)
    (hP : x550_id_paths.find? (isValidAt env P) = some hit) :
    (X550_connect env host portStart portEnd).1
        = some ("http://" ++ host ++ ":" ++ toString P, rsplit_root hit) ∧
      (X550_connect env host portStart portEnd).2
        = ((x550_candidate_ports portStart portEnd).takeWhile fun q => q != P).flatMap
              (fun q => x550_id_paths.map fun pa => (q, pa))
            ++ ((x550_id_paths.takeWhile fun pa => !isValidAt env P pa).map (fun pa => (P, pa))
              ++ [(P, hit)]) := by
  have h := connect_ports_first_valid env host
    (x550_candidate_ports portStart portEnd) P hit hmem honly hP
  constructor
  · simp [X550_connect, h]
  · simp [X550_connect, h]

/-- Witness for `c9_connect_stops_at_valid`: scanning 8082-8085, only
port 8083 answers — 404 at `/api/v2/id`, then 200 + `{"family": ...}`
at `/api/v1/id`; connect fixes `http://127.0.0.1:8083` with api root
`/api/v1` and probes no port after 8083. -/
theorem c9_connect_stops_at_valid_witness :
    (X550_connect
        (fun port path =>
          if port == 8083 && path == "/api/v1/id" then some ⟨200, .jobj ["family", "apps"]⟩
          else if port == 8083 && path == "/api/v2/id" then some ⟨404, .jbad⟩
          else none) "127.0.0.1" 8082 8085).1
      = some ("http://" ++ "127.0.0.1" ++ ":" ++ toString 8083, rsplit_root "/api/v1/id") ∧
    (X550_connect
        (fun port path =>
          if port == 8083 && path == "/api/v1/id" then some ⟨200, .jobj ["family", "apps"]⟩
          else if port == 8083 && path == "/api/v2/id" then some ⟨404, .jbad⟩
          else none) "127.0.0.1" 8082 8085).2
      = ((x550_candidate_ports 8082 8085).takeWhile fun q => q != 8083).flatMap
            (fun q => x550_id_paths.map fun pa => (q, pa))
          ++ ((x550_id_paths.takeWhile fun pa =>
                !isValidAt
                  (fun port path =>
                    if port == 8083 && path == "/api/v1/id" then some ⟨200, .jobj ["family", "apps"]⟩
                    else if port == 8083 && path == "/api/v2/id" then some ⟨404, .jbad⟩
                    else none) 8083 pa).map (fun pa => (8083, pa))
            ++ [(8083, "/api/v1/id")]) :=
  c9_connect_stops_at_valid _ "127.0.0.1" 8082 8085 8083 "/api/v1/id"
    (by decide) (by decide) (by decide)

/- ====================================================================
   Combo sequence orchestrator
   (`start_x550_combo_sequence_2`, robotray_dash_backup2feb.py,
   lines 1768-1940)
   ==================================================================== -/

/-- What one analyzer trigger (`requests.post .../test/final`) did, per
repetition: `ok` with the number of spectra, a non-2xx status, a
`requests.Timeout`, or some other raised exception. -/
inductive TrigOutcome where
  | ok (numSpectra : Nat)
  | httpFail (status : Nat)
  | timeoutErr
  | raised (msg : String)
  deriving DecidableEq, Repr

def isFailOutcome : TrigOutcome → Bool
  | .ok _ => false
  | _ => true

/-- Python `str(e)[:50]`. -/
def strTake50 (m : String) : String := ⟨m.data.take 50⟩

/-- The per-step string appended to `results` (lines 1831-1840 for
Mining, 1875-1884 for Soil). -/
def trigResult (label : String) (o : TrigOutcome) : String :=
  match o with
  | .ok n => label ++ ": OK (" ++ toString n ++ " beams)"
  | .httpFail c => label ++ ": failed (" ++ toString c ++ ")"
  | .timeoutErr => label ++ ": timeout"
  | .raised m => label ++ ": error (" ++ strTake50 m ++ ")"

def listPrefixOf : List Char → List Char → Bool
  | [], _ => true
  | _ :: _, [] => false
  | a :: l, b :: m => a == b && listPrefixOf l m

/-- Whether a per-step result string marks its step as failed, i.e. is
not of the `<label>: OK (...)` success form. -/
def marksFailure (label : String) (s : String) : Bool :=
  !listPrefixOf (label ++ ": OK (").data s.data

lemma listPrefixOf_self_append (l t : List Char) : listPrefixOf l (l ++ t) = true := by
  induction l with
  | nil => rfl
  | cons a l ih => simp [listPrefixOf, ih]

lemma listPrefixOf_same_append (l a b : List Char) :
    listPrefixOf (l ++ a) (l ++ b) = listPrefixOf a b := by
  induction l with
  | nil => rfl
  | cons c l ih => simp [listPrefixOf, ih]

lemma listPrefixOf_append_of_le (l m t : List Char) (h : l.length ≤ m.length) :
    listPrefixOf l (m ++ t) = listPrefixOf l m := by
  induction l generalizing m with
  | nil => simp [listPrefixOf]
  | cons a l ih =>
      cases m with
      | nil => simp at h
      | cons b m =>
          simp only [List.cons_append, listPrefixOf]
          congr 1
          exact ih m (by simpa using h)

/-- A rendered step string marks failure exactly when the outcome it
renders was a failure. -/
lemma marksFailure_trigResult (label : String) (o : TrigOutcome) :
    marksFailure label (trigResult label o) = isFailOutcome o := by
  cases o with
  | ok n =>
      have h := listPrefixOf_self_append ((label ++ ": OK (").data)
        ((toString n).data ++ (" beams)").data)
      simp only [marksFailure, trigResult, isFailOutcome]
      rw [show (label ++ ": OK (" ++ toString n ++ " beams)").data
          = (label ++ ": OK (").data ++ ((toString n).data ++ (" beams)").data) by
        simp [String.data_append]]
      rw [h]
      rfl
  | httpFail c =>
      simp only [marksFailure, trigResult, isFailOutcome]
      rw [show (label ++ ": failed (" ++ toString c ++ ")").data
          = label.data ++ ((": failed (").data ++ ((toString c).data ++ (")").data)) by
        simp [String.data_append]]
      rw [show (label ++ ": OK (").data = label.data ++ (": OK (").data by
        simp [String.data_append]]
      rw [listPrefixOf_same_append]
      rw [listPrefixOf_append_of_le _ _ _ (by decide)]
      decide
  | timeoutErr =>
      simp only [marksFailure, trigResult, isFailOutcome]
      rw [show (label ++ ": timeout").data = label.data ++ (": timeout").data by
        simp [String.data_append]]
      rw [show (label ++ ": OK (").data = label.data ++ (": OK (").data by
        simp [String.data_append]]
      rw [listPrefixOf_same_append]
      decide
  | raised m =>
      simp only [marksFailure, trigResult, isFailOutcome]
      rw [show (label ++ ": error (" ++ strTake50 m ++ ")").data
          = label.data ++ ((": error (").data ++ ((strTake50 m).data ++ (")").data)) by
        simp [String.data_append]]
      rw [show (label ++ ": OK (").data = label.data ++ (": OK (").data by
        simp [String.data_append]]
      rw [listPrefixOf_same_append]
      rw [listPrefixOf_append_of_le _ _ _ (by decide)]
      decide

/-- Python whitespace as recognised by `str.strip()`/`float()`. -/
def pyWS (c : Char) : Bool :=
  c = ' ' || c = '\t' || c = '\n' || c = '\r' || c = '\x0b' || c = '\x0c'

/-- Python `str.strip()`. -/
def stripWS (l : List Char) : List Char :=
  ((l.dropWhile pyWS).reverse.dropWhile pyWS).reverse

/-- Python `str.split('\t')` (keeps empty fields). -/
def splitTab : List Char → List (List Char)
  | [] => [[]]
  | c :: t =>
    match splitTab t with
    | [] => [[]]
    | f :: rest => if c = '\t' then [] :: f :: rest else (c :: f) :: rest

def digitsToNat (l : List Char) : Nat :=
  l.foldl (fun a c => a * 10 + (c.toNat - '0'.toNat)) 0

/-- Python `float()` on the decimal literals found in the offset table:
optional surrounding whitespace, optional sign, digits with at most one
dot and at least one digit (exponent forms are out of scope for the
tab-separated offset rows). -/
def parsePyFloat (l0 : List Char) : Option Rat :=
  let l := stripWS l0
  let sgn : Rat := match l with | '-' :: _ => -1 | _ => 1
  let l1 : List Char := match l with | '-' :: t => t | '+' :: t => t | _ => l
  let d1 := l1.takeWhile Char.isDigit
  let r1 := l1.dropWhile Char.isDigit
  match r1 with
  | [] => if d1 = [] then none else some (sgn * (digitsToNat d1 : Rat))
  | '.' :: r2 =>
    let d2 := r2.takeWhile Char.isDigit
    let r3 := r2.dropWhile Char.isDigit
    if r3 = [] ∧ ¬(d1 = [] ∧ d2 = []) then
      some (sgn * ((digitsToNat d1 : Rat) + (digitsToNat d2 : Rat) / (10 : Rat) ^ d2.length))
    else none
  | _ => none

/-- One row of `tray_sequence.txt` as the Forward step reads it (lines
1903-1909): in-range row index, `strip().split('\t')`, at least two
fields, both parsing as floats.  `none` covers the end-of-sequence,
invalid-row-format and parse-error warning branches alike (they differ
only in the warning text and none of them moves or increments). -/
def rowDelta (lines : List (List Char)) (row : Nat) : Option (Rat × Rat) :=
  match lines.get? row with
  | none => none
  | some line =>
    let rowData := splitTab (stripWS line)
    if 2 ≤ rowData.length then
      match parsePyFloat (rowData.getD 0 []), parsePyFloat (rowData.getD 1 []) with
      | some xd, some yd => some (xd, yd)
      | _, _ => none
    else none

/-- Serial traffic of one Forward step, as structured commands
(`G91` / `G0 X.. Y.. F3000` / `G90`). -/
inductive TrayCmd where
  | g91
  | g0move (xd yd : Rat)
  | g90
  deriving DecidableEq, Repr

/-- Tray-side events of the orchestrator: a `_send` of a command, or the
`TRAY_SEQUENCE_ROW += 1` cursor increment (recording the new value). -/
inductive TrayEv where
  | send (c : TrayCmd)
  | cursorInc (newRow : Nat)
  deriving DecidableEq, Repr

/-- The event block of one successful Forward step (lines 1911-1915):
`G91`, the relative `G0` unless both deltas are zero, `G90`, and only
then the cursor increment. -/
def advanceBlock (d : Rat × Rat) (row : Nat) : List TrayEv :=
  .send .g91 ::
    ((if d.1 ≠ 0 ∨ d.2 ≠ 0 then [.send (.g0move d.1 d.2)] else [])
      ++ [.send .g90, .cursorInc (row + 1)])

/-- Environment of one combo-sequence run: connectivity, per-repetition
trigger outcomes, and the offset table (`none` = file missing). -/
structure ComboEnv where
  x550Connected : Bool
  mining : Nat → TrigOutcome
  soil : Nat → TrigOutcome
  trayConnected : Bool
  seqFile : Option (List (List Char))

/-- The Forward step (lines 1889-1931): skipped without events when the
tray is disconnected, the file is missing, or the current row is
missing/invalid; otherwise it sends the advance block and increments the
cursor. -/
def forwardStep (env : ComboEnv) (row : Nat) : Nat × List TrayEv :=
  if env.trayConnected then
    match env.seqFile with
    | some lines =>
      match rowDelta lines row with
      | some d => (row + 1, advanceBlock d row)
      | none => (row, [])
    | none => (row, [])
  else (row, [])

structure ComboOut where
  finalCounter : Int
  finalRow : Nat
  results : List String
  issued : List Int
  trayEvents : List TrayEv
  deriving DecidableEq

/-- The repetition loop of `start_x550_combo_sequence_2` (lines
1790-1931): repetition `i` takes one fresh test number, runs the Mining
then the Soil trigger unconditionally (each failure only appends its
per-step string), and runs the Forward step only when `i <
combo_count - 1`.  `rem` is the number of repetitions left. -/
def combo_loop (env : ComboEnv) (n : Nat) (i : Nat) (counter : Int) (row : Nat) :
    Nat → ComboOut
  | 0 => ⟨counter, row, [], [], []⟩
  | rem + 1 =>
    let rM := trigResult "Mining" (env.mining i)
    let rS := trigResult "Soil" (env.soil i)
    let step := if i < n - 1 then forwardStep env row else (row, [])
    let rest := combo_loop env n (i + 1) (counter + 1) step.1 rem
    ⟨rest.finalCounter, rest.finalRow, rM :: rS :: rest.results,
      counter :: rest.issued, step.2 ++ rest.trayEvents⟩

/-- `start_x550_combo_sequence_2` top level: refuses to run when the
X550 is not connected or the count is < 1 (lines 1775-1783), else runs
the loop over `combo_count` repetitions. -/
def start_x550_combo_sequence_2 (env : ComboEnv) (comboCount : Nat)
    (counter : Int) (row : Nat) : Option ComboOut :=
  if env.x550Connected = true ∧ 1 ≤ comboCount then
    some (combo_loop env comboCount 0 counter row comboCount)
  else none

lemma combo_loop_zero (env : ComboEnv) (n i : Nat) (c : Int) (row : Nat) :
    combo_loop env n i c row 0 = ⟨c, row, [], [], []⟩ := rfl

lemma combo_loop_succ (env : ComboEnv) (n i : Nat) (c : Int) (row rem : Nat) :
    combo_loop env n i c row (rem + 1)
      = let step := if i < n - 1 then forwardStep env row else (row, [])
        let rest := combo_loop env n (i + 1) (c + 1) step.1 rem
        ⟨rest.finalCounter, rest.finalRow,
          trigResult "Mining" (env.mining i) :: trigResult "Soil" (env.soil i) :: rest.results,
          c :: rest.issued, step.2 ++ rest.trayEvents⟩ := rfl

lemma forwardStep_outcome_independent (env : ComboEnv) (m' s' : Nat → TrigOutcome)
    (row : Nat) :
    forwardStep { env with mining := m', soil := s' } row = forwardStep env row := rfl

lemma combo_loop_results_length (env : ComboEnv) (n : Nat) :
    ∀ rem i c row, (combo_loop env n i c row rem).results.length = 2 * rem := by
  intro rem
  induction rem with
  | zero => intro i c row; rfl
  | succ rem ih =>
      intro i c row
      simp only [combo_loop_succ, List.length_cons]
      rw [ih]
      omega

lemma combo_loop_results_get (env : ComboEnv) (n : Nat) :
    ∀ rem i c row j, j < rem →
      (combo_loop env n i c row rem).results.get? (2 * j)
          = some (trigResult "Mining" (env.mining (i + j))) ∧
        (combo_loop env n i c row rem).results.get? (2 * j + 1)
          = some (trigResult "Soil" (env.soil (i + j))) := by
  intro rem
  induction rem with
  | zero => intro i c row j hj; omega
  | succ rem ih =>
      intro i c row j hj
      cases j with
      | zero => simp [combo_loop_succ]
      | succ j =>
          have hrec := ih (i + 1) (c + 1)
            ((if i < n - 1 then forwardStep env row else (row, [])).1) j (by omega)
          have hi : i + 1 + j = i + (j + 1) := by omega
          rw [hi] at hrec
          constructor
          · have h2 : 2 * (j + 1) = 2 * j + 1 + 1 := by omega
            rw [h2]
            simp only [combo_loop_succ, List.get?_cons_succ]
            exact hrec.1
          · have h3 : 2 * (j + 1) + 1 = (2 * j + 1) + 1 + 1 := by omega
            rw [h3]
            simp only [combo_loop_succ, List.get?_cons_succ]
            exact hrec.2

lemma combo_loop_issued (env : ComboEnv) (n : Nat) :
    ∀ rem i c row, (combo_loop env n i c row rem).issued
      = (List.range rem).map (fun k : Nat => c + (k : Int)) := by
  intro rem
  induction rem with
  | zero => intro i c row; rfl
  | succ rem ih =>
      intro i c row
      simp only [combo_loop_succ, ih, List.range_succ_eq_map, List.map_cons, List.map_map]
      congr 1
      · simp
      · refine List.map_congr_left fun k _ => ?_
        simp only [Function.comp]
        push_cast
        ring

lemma combo_loop_tray_independent (env : ComboEnv) (n : Nat)
    (m' s' : Nat → TrigOutcome) :
    ∀ rem i c row,
      (combo_loop { env with mining := m', soil := s' } n i c row rem).trayEvents
          = (combo_loop env n i c row rem).trayEvents ∧
        (combo_loop { env with mining := m', soil := s' } n i c row rem).finalRow
          = (combo_loop env n i c row rem).finalRow := by
  intro rem
  induction rem with
  | zero => intro i c row; exact ⟨rfl, rfl⟩
  | succ rem ih =>
      intro i c row
      have hrec := ih (i + 1) (c + 1)
        ((if i < n - 1 then forwardStep env row else (row, [])).1)
      constructor
      · simp only [combo_loop_succ, forwardStep_outcome_independent]
        rw [hrec.1]
      · simp only [combo_loop_succ, forwardStep_outcome_independent]
        rw [hrec.2]

lemma combo_loop_advances (env : ComboEnv) (lines : List (List Char)) (n : Nat)
    (htray : env.trayConnected = true) (hseq : env.seqFile = some lines) :
    ∀ rem i c row, i + rem = n →
      (∀ k, k < rem - 1 → (rowDelta lines (row + k)).isSome) →
      (combo_loop env n i c row rem).finalRow = row + (rem - 1) ∧
        (combo_loop env n i c row rem).trayEvents
          = ((List.range (rem - 1)).map fun k =>
              advanceBlock ((rowDelta lines (row + k)).getD (0, 0)) (row + k)).flatten := by
  intro rem
  induction rem with
  | zero =>
      intro i c row _ _
      exact ⟨rfl, rfl⟩
  | succ rem ih =>
      intro i c row hin hrows
      cases rem with
      | zero =>
          have hni : ¬ i < n - 1 := by omega
          refine ⟨?_, ?_⟩ <;> simp [combo_loop_succ, combo_loop_zero, hni]
      | succ rem' =>
          have hi : i < n - 1 := by omega
          have h0 : (rowDelta lines (row + 0)).isSome := hrows 0 (by omega)
          rw [Nat.add_zero] at h0
          obtain ⟨d, hd⟩ := Option.isSome_iff_exists.mp h0
          have hfwd : forwardStep env row = (row + 1, advanceBlock d row) := by
            simp [forwardStep, htray, hseq, hd]
          have hrec := ih (i + 1) (c + 1) (row + 1) (by omega)
            (fun k hk => by
              have hx := hrows (k + 1) (by omega)
              have hy : row + (k + 1) = row + 1 + k := by omega
              rw [hy] at hx
              exact hx)
          refine ⟨?_, ?_⟩
          · simp only [combo_loop_succ]
            rw [if_pos hi, hfwd]
            show (combo_loop env n (i + 1) (c + 1) (row + 1) (rem' + 1)).finalRow
              = row + (rem' + 1 + 1 - 1)
            rw [hrec.1]
            omega
          · simp only [combo_loop_succ]
            rw [if_pos hi, hfwd]
            show advanceBlock d row
                ++ (combo_loop env n (i + 1) (c + 1) (row + 1) (rem' + 1)).trayEvents
              = ((List.range (rem' + 1 + 1 - 1)).map fun k =>
                  advanceBlock ((rowDelta lines (row + k)).getD (0, 0)) (row + k)).flatten
            rw [hrec.2]
            have hsucc : rem' + 1 + 1 - 1 = rem' + 1 := rfl
            rw [hsucc, List.range_succ_eq_map, List.map_cons, List.flatten_cons, List.map_map]
            congr 1
            · simp [hd]
            · refine congrArg List.flatten (List.map_congr_left fun k _ => ?_)
              have hk : row + 1 + k = row + (k + 1) := by omega
              simp [Function.comp, hk]

/- ====================================================================
   Theorems: C2, C3
   ==================================================================== -/

/-- C2: in every combo run of N ≥ 1 repetitions, regardless of trigger
outcomes: the run proceeds (no repetition is aborted), every repetition
runs both its Mining and its Soil trigger and records exactly one
per-step string for each (a failure string exactly for the failed
steps), the run issues N consecutive — hence distinct — test numbers,
one per repetition, and the stage-advance behaviour (tray events and
final cursor) is identical to that of the same run with every trigger
replaced by any other outcomes: a trigger failure never suppresses a
stage advance. -/
theorem c2_failure_does_not_abort (env : ComboEnv) (n : Nat) (c0 : Int) (row0 : Nat)
    (hconn : env.x550Connected = true) (hn : 1 ≤ n) :
    start_x550_combo_sequence_2 env n c0 row0 = some (combo_loop env n 0 c0 row0 n) ∧
      (combo_loop env n 0 c0 row0 n).results.length = 2 * n ∧
      (∀ i, i < n →
        (combo_loop env n 0 c0 row0 n).results.get? (2 * i)
            = some (trigResult "Mining" (env.mining i)) ∧
          (combo_loop env n 0 c0 row0 n).results.get? (2 * i + 1)
            = some (trigResult "Soil" (env.soil i)) ∧
          marksFailure "Mining" (trigResult "Mining" (env.mining i))
            = isFailOutcome (env.mining i) ∧
          marksFailure "Soil" (trigResult "Soil" (env.soil i))
            = isFailOutcome (env.soil i)) ∧
      (combo_loop env n 0 c0 row0 n).issued
          = (List.range n).map (fun k : Nat => c0 + (k : Int)) ∧
      (combo_loop env n 0 c0 row0 n).issued.Nodup ∧
      (∀ m' s' : Nat → TrigOutcome,
        (combo_loop { env with mining := m', soil := s' } n 0 c0 row0 n).trayEvents
            = (combo_loop env n 0 c0 row0 n).trayEvents ∧
          (combo_loop { env with mining := m', soil := s' } n 0 c0 row0 n).finalRow
            = (combo_loop env n 0 c0 row0 n).finalRow) := by
  refine ⟨by simp [start_x550_combo_sequence_2, hconn, hn],
    combo_loop_results_length env n n 0 c0 row0,
    fun i hi => ?_, combo_loop_issued env n n 0 c0 row0, ?_,
    fun m' s' => combo_loop_tray_independent env n m' s' n 0 c0 row0⟩
  · obtain ⟨h1, h2⟩ := combo_loop_results_get env n n 0 c0 row0 i hi
    simp only [Nat.zero_add] at h1 h2
    exact ⟨h1, h2, marksFailure_trigResult _ _, marksFailure_trigResult _ _⟩
  · rw [combo_loop_issued env n n 0 c0 row0]
    have hinj : Function.Injective (fun k : Nat => c0 + (k : Int)) := by
      intro a b hab
      have hab' : (a : Int) = (b : Int) := by
        simpa using add_left_cancel hab
      exact_mod_cast hab'
    exact List.Nodup.map hinj (List.nodup_range n)

/-- C3: in a non-aborted run of N ≥ 1 repetitions with the tray
connected and the next N−1 offset rows valid, the sequence cursor ends
at exactly row0 + (N−1) and the tray traffic is precisely the N−1
advance blocks in order — each block sends `G91`, the relative `G0`
move (when a delta is nonzero), `G90`, and increments the cursor only
after those sends; no advance happens after the final repetition. -/
theorem c3_cursor_advances (env : ComboEnv) (lines : List (List Char)) (n : Nat)
    (c0 : Int) (row0 : Nat)
    (htray : env.trayConnected = true) (hseq : env.seqFile = some lines)
    (hconn : env.x550Connected = true) (hn : 1 ≤ n)
    (hrows : ∀ k, k < n - 1 → (rowDelta lines (row0 + k)).isSome) :
    start_x550_combo_sequence_2 env n c0 row0 = some (combo_loop env n 0 c0 row0 n) ∧
      (combo_loop env n 0 c0 row0 n).finalRow = row0 + (n - 1) ∧
      (combo_loop env n 0 c0 row0 n).trayEvents
        = ((List.range (n - 1)).map fun k =>
            advanceBlock ((rowDelta lines (row0 + k)).getD (0, 0)) (row0 + k)).flatten := by
  obtain ⟨h1, h2⟩ := combo_loop_advances env lines n htray hseq n 0 c0 row0 (by omega) hrows
  exact ⟨by simp [start_x550_combo_sequence_2, hconn, hn], h1, h2⟩

/-- Concrete run for the C2 witness: 3 repetitions, repetition 1's
Mining trigger returns HTTP 500, everything else succeeds. -/
def comboEnvC2 : ComboEnv :=
  { x550Connected := true
    mining := fun i => if i = 1 then .httpFail 500 else .ok 3
    soil := fun _ => .ok 2
    trayConnected := true
    seqFile := some [[], [], ['1', '\t', '2'], ['3', '\t', '4']] }

/-- Witness for `c2_failure_does_not_abort` at a concrete 3-repetition
run with one failed trigger. -/
theorem c2_failure_does_not_abort_witness :
    start_x550_combo_sequence_2 comboEnvC2 3 7 2 = some (combo_loop comboEnvC2 3 0 7 2 3) ∧
      (combo_loop comboEnvC2 3 0 7 2 3).results.length = 2 * 3 ∧
      (∀ i, i < 3 →
        (combo_loop comboEnvC2 3 0 7 2 3).results.get? (2 * i)
            = some (trigResult "Mining" (comboEnvC2.mining i)) ∧
          (combo_loop comboEnvC2 3 0 7 2 3).results.get? (2 * i + 1)
            = some (trigResult "Soil" (comboEnvC2.soil i)) ∧
          marksFailure "Mining" (trigResult "Mining" (comboEnvC2.mining i))
            = isFailOutcome (comboEnvC2.mining i) ∧
          marksFailure "Soil" (trigResult "Soil" (comboEnvC2.soil i))
            = isFailOutcome (comboEnvC2.soil i)) ∧
      (combo_loop comboEnvC2 3 0 7 2 3).issued
          = (List.range 3).map (fun k : Nat => 7 + (k : Int)) ∧
      (combo_loop comboEnvC2 3 0 7 2 3).issued.Nodup ∧
      (∀ m' s' : Nat → TrigOutcome,
        (combo_loop { comboEnvC2 with mining := m', soil := s' } 3 0 7 2 3).trayEvents
            = (combo_loop comboEnvC2 3 0 7 2 3).trayEvents ∧
          (combo_loop { comboEnvC2 with mining := m', soil := s' } 3 0 7 2 3).finalRow
            = (combo_loop comboEnvC2 3 0 7 2 3).finalRow) :=
  c2_failure_does_not_abort comboEnvC2 3 7 2 rfl (by decide)

/-- Concrete run for the C3 witness: 3 repetitions starting at cursor
row 2, offset rows `1.5\t-2` and `0\t0` (the second exercising the
zero-delta branch that skips the `G0` but still increments). -/
def comboEnvC3 : ComboEnv :=
  { x550Connected := true
    mining := fun _ => .ok 1
    soil := fun _ => .ok 1
    trayConnected := true
    seqFile := some [[], [], ['1', '.', '5', '\t', '-', '2'], ['0', '\t', '0']] }

/-- Witness for `c3_cursor_advances` at a concrete 3-repetition run. -/
theorem c3_cursor_advances_witness :
    start_x550_combo_sequence_2 comboEnvC3 3 7 2 = some (combo_loop comboEnvC3 3 0 7 2 3) ∧
      (combo_loop comboEnvC3 3 0 7 2 3).finalRow = 2 + (3 - 1) ∧
      (combo_loop comboEnvC3 3 0 7 2 3).trayEvents
        = ((List.range (3 - 1)).map fun k =>
            advanceBlock
              ((rowDelta [[], [], ['1', '.', '5', '\t', '-', '2'], ['0', '\t', '0']] (2 + k)).getD (0, 0))
              (2 + k)).flatten :=
  c3_cursor_advances comboEnvC3 [[], [], ['1', '.', '5', '\t', '-', '2'], ['0', '\t', '0']]
    3 7 2 rfl rfl rfl (by decide) (by decide)

/- ====================================================================
   M114 position parsing (`TrayConnection.get_position`,
   robotray_dash_backup2feb.py, lines 336-356)

   The two `re.search` patterns are embedded via a small backtracking
   regex engine over the exact element sequences of the source
   patterns, with Python's leftmost / greedy-first semantics.
   ==================================================================== -/

/-- Elements of the two M114 patterns: a literal character, an optional
character class (`[..]?`), a greedy class star (`[..]*`), a greedy class
plus (`[..]+`), and the capture-group delimiters. -/
inductive RItem where
  | lit (c : Char)
  | copt (p : Char → Bool)
  | cstar (p : Char → Bool)
  | cplus (p : Char → Bool)
  | gopen
  | gclose

/-- Append a consumed character to the currently open capture group. -/
def addCur (cur : Option (List Char)) (c : Char) : Option (List Char) :=
  match cur with
  | some l => some (l ++ [c])
  | none => none

/-- Backtracking matcher: matches the item list against a prefix of the
input, greedy-first for `?`/`*`/`+` exactly as Python's `re`, returning
the captured groups of the first match in backtracking order. -/
def matchItems : List RItem → List Char → List (List Char) → Option (List Char) →
    Option (List (List Char))
  | [], _, acc, _ => some acc
  | .lit c :: rest, s, acc, cur =>
    match s with
    | [] => none
    | a :: s' => if a = c then matchItems rest s' acc (addCur cur a) else none
  | .copt p :: rest, s, acc, cur =>
    match s with
    | [] => matchItems rest [] acc cur
    | a :: s' =>
      if p a then
        match matchItems rest s' acc (addCur cur a) with
        | some r => some r
        | none => matchItems rest (a :: s') acc cur
      else matchItems rest (a :: s') acc cur
  | .cstar p :: rest, s, acc, cur =>
    match s with
    | [] => matchItems rest [] acc cur
    | a :: s' =>
      if p a then
        match matchItems (.cstar p :: rest) s' acc (addCur cur a) with
        | some r => some r
        | none => matchItems rest (a :: s') acc cur
      else matchItems rest (a :: s') acc cur
  | .cplus p :: rest, s, acc, cur =>
    match s with
    | [] => none
    | a :: s' => if p a then matchItems (.cstar p :: rest) s' acc (addCur cur a) else none
  | .gopen :: rest, s, acc, _ => matchItems rest s acc (some [])
  | .gclose :: rest, s, acc, cur => matchItems rest s (acc ++ [cur.getD []]) none
  termination_by items s _ _ => (s.length, items.length)

/-- `re.search`: try a match at every start position, leftmost first. -/
def reSearch (items : List RItem) : List Char → Option (List (List Char))
  | [] => matchItems items [] [] none
  | a :: s' =>
    match matchItems items (a :: s') [] none with
    | some r => some r
    | none => reSearch items s'

/-- `\d` (ASCII range, as produced by the firmware). -/
def digitRE (c : Char) : Bool := c.isDigit

/-- The group `(-?\d*\.?\d+)` of the first pattern. -/
def numGroup1 : List RItem :=
  [.gopen, .copt (fun c => c = '-'), .cstar digitRE, .copt (fun c => c = '.'),
    .cplus digitRE, .gclose]

/-- The group `(-?\d+\.?\d*)` of the second pattern. -/
def numGroup2 : List RItem :=
  [.gopen, .copt (fun c => c = '-'), .cplus digitRE, .copt (fun c => c = '.'),
    .cstar digitRE, .gclose]

/-- `X:\s*(-?\d*\.?\d+)\s*Y:\s*(-?\d*\.?\d+)\s*Z:\s*(-?\d*\.?\d+)`
(line 350); `\s` is modelled by the same whitespace class `pyWS`. -/
def m114_pattern1 : List RItem :=
  [.lit 'X', .lit ':', .cstar pyWS] ++ numGroup1
    ++ [.cstar pyWS, .lit 'Y', .lit ':', .cstar pyWS] ++ numGroup1
    ++ [.cstar pyWS, .lit 'Z', .lit ':', .cstar pyWS] ++ numGroup1

/-- `X[.:]?\s*(-?\d+\.?\d*)\s*Y:\s*(-?\d+\.?\d*)\s*Z:\s*(-?\d+\.?\d*)`
(line 353). -/
def m114_pattern2 : List RItem :=
  [.lit 'X', .copt (fun c => c = '.' || c = ':'), .cstar pyWS] ++ numGroup2
    ++ [.cstar pyWS, .lit 'Y', .lit ':', .cstar pyWS] ++ numGroup2
    ++ [.cstar pyWS, .lit 'Z', .lit ':', .cstar pyWS] ++ numGroup2

def m114_err_front : List Char :=
  ("Could not parse position from M114 response. Got: '").data

def m114_err_suffix : List Char := [Char.ofNat 39]

/-- The parsing core of `get_position` (lines 348-356): try pattern 1,
then pattern 2, and raise a `ValueError` carrying the raw response when
neither matches; on success the three captures are the (x, y, z)
fields handed to `float`. -/
def get_position_parse (resp : List Char) :
    Except (List Char) (List Char × List Char × List Char) :=
  match reSearch m114_pattern1 resp with
  | some gs => .ok (gs.getD 0 [], gs.getD 1 [], gs.getD 2 [])
  | none =>
    match reSearch m114_pattern2 resp with
    | some gs => .ok (gs.getD 0 [], gs.getD 1 [], gs.getD 2 [])
    | none => .error (m114_err_front ++ resp ++ m114_err_suffix)

/-- The colon label format `X: a Y: b Z: c`. -/
def colonResp (a b c : List Char) : List Char :=
  'X' :: ':' :: ' ' ::
    (a ++ (' ' :: 'Y' :: ':' :: ' ' :: (b ++ (' ' :: 'Z' :: ':' :: ' ' :: c))))

/-- The variant with a period after the X label: `X. a Y: b Z: c`. -/
def periodResp (a b c : List Char) : List Char :=
  'X' :: '.' :: ' ' ::
    (a ++ (' ' :: 'Y' :: ':' :: ' ' :: (b ++ (' ' :: 'Z' :: ':' :: ' ' :: c))))

/-- Accumulate a run of consumed characters into the open capture. -/
def curApp (cur : Option (List Char)) (t : List Char) : Option (List Char) :=
  t.foldl addCur cur

lemma addCur_none (c : Char) : addCur none c = none := rfl

lemma curApp_some (l t : List Char) : curApp (some l) t = some (l ++ t) := by
  induction t generalizing l with
  | nil => simp [curApp]
  | cons c t ih =>
      show curApp (addCur (some l) c) t = _
      rw [show addCur (some l) c = some (l ++ [c]) from rfl, ih]
      simp

lemma curApp_none (t : List Char) : curApp none t = none := by
  induction t with
  | nil => rfl
  | cons c t ih => exact ih

lemma mi_done (s : List Char) (acc : List (List Char)) (cur : Option (List Char)) :
    matchItems [] s acc cur = some acc := by
  simp [matchItems]

lemma mi_lit {c : Char} {rest : List RItem} {s : List Char} {acc : List (List Char)}
    {cur : Option (List Char)} :
    matchItems (.lit c :: rest) (c :: s) acc cur = matchItems rest s acc (addCur cur c) := by
  simp [matchItems]

lemma mi_lit_ne {c a : Char} {rest : List RItem} {s : List Char} {acc : List (List Char)}
    {cur : Option (List Char)} (h : a ≠ c) :
    matchItems (.lit c :: rest) (a :: s) acc cur = none := by
  simp [matchItems, h]

lemma mi_lit_nil {c : Char} {rest : List RItem} {acc : List (List Char)}
    {cur : Option (List Char)} :
    matchItems (.lit c :: rest) [] acc cur = none := by
  simp [matchItems]

lemma mi_copt_skip {p : Char → Bool} {a : Char} {rest : List RItem} {s : List Char}
    {acc : List (List Char)} {cur : Option (List Char)} (hp : p a = false) :
    matchItems (.copt p :: rest) (a :: s) acc cur = matchItems rest (a :: s) acc cur := by
  simp [matchItems, hp]

lemma mi_copt_consume {p : Char → Bool} {a : Char} {rest : List RItem} {s : List Char}
    {acc res : List (List Char)} {cur : Option (List Char)} (hp : p a = true)
    (h : matchItems rest s acc (addCur cur a) = some res) :
    matchItems (.copt p :: rest) (a :: s) acc cur = some res := by
  simp [matchItems, hp, h]

lemma mi_star_nil {p : Char → Bool} {rest : List RItem} {acc : List (List Char)}
    {cur : Option (List Char)} :
    matchItems (.cstar p :: rest) [] acc cur = matchItems rest [] acc cur := by
  simp [matchItems]

lemma mi_star_skip {p : Char → Bool} {a : Char} {rest : List RItem} {s : List Char}
    {acc : List (List Char)} {cur : Option (List Char)} (hp : p a = false) :
    matchItems (.cstar p :: rest) (a :: s) acc cur = matchItems rest (a :: s) acc cur := by
  simp [matchItems, hp]

lemma mi_star_consume {p : Char → Bool} {a : Char} {rest : List RItem} {s : List Char}
    {acc res : List (List Char)} {cur : Option (List Char)} (hp : p a = true)
    (h : matchItems (.cstar p :: rest) s acc (addCur cur a) = some res) :
    matchItems (.cstar p :: rest) (a :: s) acc cur = some res := by
  simp [matchItems, hp, h]

lemma mi_star_run {p : Char → Bool} {rest : List RItem} {t r : List Char}
    {acc res : List (List Char)} {cur : Option (List Char)}
    (ht : ∀ c ∈ t, p c = true)
    (h : matchItems (.cstar p :: rest) r acc (curApp cur t) = some res) :
    matchItems (.cstar p :: rest) (t ++ r) acc cur = some res := by
  induction t generalizing cur with
  | nil => exact h
  | cons c t ih =>
      refine mi_star_consume (ht c (List.mem_cons_self _ _)) ?_
      exact ih (fun x hx => ht x (List.mem_cons_of_mem _ hx)) h

lemma mi_star_exit {p : Char → Bool} {rest : List RItem} {r : List Char}
    {acc res : List (List Char)} {cur : Option (List Char)}
    (hb : r = [] ∨ ∃ b r', r = b :: r' ∧ p b = false)
    (h : matchItems rest r acc cur = some res) :
    matchItems (.cstar p :: rest) r acc cur = some res := by
  rcases hb with rfl | ⟨b, r', rfl, hbf⟩
  · rw [mi_star_nil]; exact h
  · rw [mi_star_skip hbf]; exact h

lemma mi_plus {p : Char → Bool} {a : Char} {rest : List RItem} {s : List Char}
    {acc : List (List Char)} {cur : Option (List Char)} (hp : p a = true) :
    matchItems (.cplus p :: rest) (a :: s) acc cur
      = matchItems (.cstar p :: rest) s acc (addCur cur a) := by
  simp [matchItems, hp]

lemma mi_gopen {rest : List RItem} {s : List Char} {acc : List (List Char)}
    {cur : Option (List Char)} :
    matchItems (.gopen :: rest) s acc cur = matchItems rest s acc (some []) := by
  simp [matchItems]

lemma mi_gclose {rest : List RItem} {s : List Char} {acc : List (List Char)}
    {cur : Option (List Char)} :
    matchItems (.gclose :: rest) s acc cur = matchItems rest s (acc ++ [cur.getD []]) none := by
  simp [matchItems]

lemma reSearch_of_match {items : List RItem} {s : List Char} {r : List (List Char)}
    (h : matchItems items s [] none = some r) : reSearch items s = some r := by
  cases s with
  | nil => exact h
  | cons a s' => simp [reSearch, h]

lemma reSearch_none {items : List RItem} {s : List Char}
    (h : ∀ s', s' <:+ s → matchItems items s' [] none = none) :
    reSearch items s = none := by
  induction s with
  | nil =>
      have h0 := h [] (List.suffix_refl _)
      simpa [reSearch] using h0
  | cons a s' ih =>
      have h0 := h (a :: s') (List.suffix_refl _)
      have ih' := ih fun t ht => h t (ht.trans (List.suffix_cons a s'))
      simp [reSearch, h0, ih']

lemma digit_not_dash {c : Char} (hc : digitRE c = true) :
    (decide (c = '-')) = false := by
  apply decide_eq_false
  rintro rfl
  exact absurd hc (by decide)

lemma pyWS_of_digit {c : Char} (hc : digitRE c = true) : pyWS c = false := by
  have h1 : c ≠ ' ' := by rintro rfl; exact absurd hc (by decide)
  have h2 : c ≠ '\t' := by rintro rfl; exact absurd hc (by decide)
  have h3 : c ≠ '\n' := by rintro rfl; exact absurd hc (by decide)
  have h4 : c ≠ '\r' := by rintro rfl; exact absurd hc (by decide)
  have h5 : c ≠ '\x0b' := by rintro rfl; exact absurd hc (by decide)
  have h6 : c ≠ '\x0c' := by rintro rfl; exact absurd hc (by decide)
  simp only [pyWS]
  rw [decide_eq_false h1, decide_eq_false h2, decide_eq_false h3,
    decide_eq_false h4, decide_eq_false h5, decide_eq_false h6]
  rfl

lemma numGroup1_match {rest : List RItem} {d f r : List Char}
    {acc res : List (List Char)} {cur : Option (List Char)}
    (hd : d ≠ []) (hdd : ∀ c ∈ d, digitRE c = true)
    (hf : f ≠ []) (hfd : ∀ c ∈ f, digitRE c = true)
    (hr : r = [] ∨ ∃ b r', r = b :: r' ∧ digitRE b = false)
    (h : matchItems rest r (acc ++ [d ++ '.' :: f]) none = some res) :
    matchItems (numGroup1 ++ rest) ((d ++ '.' :: f) ++ r) acc cur = some res := by
  obtain ⟨c, d', rfl⟩ := List.exists_cons_of_ne_nil hd
  obtain ⟨b, f', rfl⟩ := List.exists_cons_of_ne_nil hf
  have hcd : digitRE c = true := hdd c (List.mem_cons_self _ _)
  have hbd : digitRE b = true := hfd b (List.mem_cons_self _ _)
  simp only [numGroup1, List.cons_append, List.nil_append, List.append_assoc]
  rw [mi_gopen]
  rw [mi_copt_skip (digit_not_dash hcd)]
  refine mi_star_consume hcd ?_
  refine mi_star_run (fun x hx => hdd x (List.mem_cons_of_mem _ hx)) ?_
  refine mi_star_exit (Or.inr ⟨'.', b :: (f' ++ r), rfl, by decide⟩) ?_
  refine mi_copt_consume (by decide) ?_
  rw [mi_plus hbd]
  refine mi_star_run (fun x hx => hfd x (List.mem_cons_of_mem _ hx)) ?_
  refine mi_star_exit hr ?_
  rw [mi_gclose]
  simpa [addCur, curApp_some] using h

lemma numGroup2_match {rest : List RItem} {d f r : List Char}
    {acc res : List (List Char)} {cur : Option (List Char)}
    (hd : d ≠ []) (hdd : ∀ c ∈ d, digitRE c = true)
    (hf : f ≠ []) (hfd : ∀ c ∈ f, digitRE c = true)
    (hr : r = [] ∨ ∃ b r', r = b :: r' ∧ digitRE b = false)
    (h : matchItems rest r (acc ++ [d ++ '.' :: f]) none = some res) :
    matchItems (numGroup2 ++ rest) ((d ++ '.' :: f) ++ r) acc cur = some res := by
  obtain ⟨c, d', rfl⟩ := List.exists_cons_of_ne_nil hd
  obtain ⟨b, f', rfl⟩ := List.exists_cons_of_ne_nil hf
  have hcd : digitRE c = true := hdd c (List.mem_cons_self _ _)
  have hbd : digitRE b = true := hfd b (List.mem_cons_self _ _)
  simp only [numGroup2, List.cons_append, List.nil_append, List.append_assoc]
  rw [mi_gopen]
  rw [mi_copt_skip (digit_not_dash hcd)]
  rw [mi_plus hcd]
  refine mi_star_run (fun x hx => hdd x (List.mem_cons_of_mem _ hx)) ?_
  refine mi_star_exit (Or.inr ⟨'.', b :: (f' ++ r), rfl, by decide⟩) ?_
  refine mi_copt_consume (by decide) ?_
  refine mi_star_consume hbd ?_
  refine mi_star_run (fun x hx => hfd x (List.mem_cons_of_mem _ hx)) ?_
  refine mi_star_exit hr ?_
  rw [mi_gclose]
  simpa [addCur, curApp_some] using h

lemma seg1_match {L : Char} {rest : List RItem} {d f r : List Char}
    {acc res : List (List Char)} {cur : Option (List Char)}
    (hL : pyWS L = false)
    (hd : d ≠ []) (hdd : ∀ c ∈ d, digitRE c = true)
    (hf : f ≠ []) (hfd : ∀ c ∈ f, digitRE c = true)
    (hr : r = [] ∨ ∃ b r', r = b :: r' ∧ digitRE b = false)
    (h : matchItems rest r (acc ++ [d ++ '.' :: f]) none = some res) :
    matchItems (.cstar pyWS :: .lit L :: .lit ':' :: .cstar pyWS :: (numGroup1 ++ rest))
      (' ' :: L :: ':' :: ' ' :: ((d ++ '.' :: f) ++ r)) acc cur = some res := by
  obtain ⟨c, d', hdc⟩ := List.exists_cons_of_ne_nil hd
  have hcd : digitRE c = true := by
    rw [hdc] at hdd
    exact hdd c (List.mem_cons_self _ _)
  refine mi_star_consume (by decide) ?_
  refine mi_star_exit (Or.inr ⟨L, _, rfl, hL⟩) ?_
  rw [mi_lit, mi_lit]
  refine mi_star_consume (by decide) ?_
  have hs : (d ++ '.' :: f) ++ r = c :: ((d' ++ '.' :: f) ++ r) := by
    rw [hdc]
    simp
  rw [hs]
  refine mi_star_exit (Or.inr ⟨c, _, rfl, pyWS_of_digit hcd⟩) ?_
  rw [← hs]
  exact numGroup1_match hd hdd hf hfd hr h

lemma seg1_final {L : Char} {d f : List Char} {acc : List (List Char)}
    {cur : Option (List Char)}
    (hL : pyWS L = false)
    (hd : d ≠ []) (hdd : ∀ c ∈ d, digitRE c = true)
    (hf : f ≠ []) (hfd : ∀ c ∈ f, digitRE c = true) :
    matchItems (.cstar pyWS :: .lit L :: .lit ':' :: .cstar pyWS :: numGroup1)
      (' ' :: L :: ':' :: ' ' :: (d ++ '.' :: f)) acc cur
      = some (acc ++ [d ++ '.' :: f]) := by
  have h := @seg1_match L [] d f [] acc (acc ++ [d ++ '.' :: f]) cur
    hL hd hdd hf hfd (Or.inl rfl) (mi_done _ _ _)
  simpa using h

lemma head1_match {rest : List RItem} {d f r : List Char}
    {acc res : List (List Char)} {cur : Option (List Char)}
    (hd : d ≠ []) (hdd : ∀ c ∈ d, digitRE c = true)
    (hf : f ≠ []) (hfd : ∀ c ∈ f, digitRE c = true)
    (hr : r = [] ∨ ∃ b r', r = b :: r' ∧ digitRE b = false)
    (h : matchItems rest r (acc ++ [d ++ '.' :: f]) none = some res) :
    matchItems (.lit 'X' :: .lit ':' :: .cstar pyWS :: (numGroup1 ++ rest))
      ('X' :: ':' :: ' ' :: ((d ++ '.' :: f) ++ r)) acc cur = some res := by
  obtain ⟨c, d', hdc⟩ := List.exists_cons_of_ne_nil hd
  have hcd : digitRE c = true := by
    rw [hdc] at hdd
    exact hdd c (List.mem_cons_self _ _)
  rw [mi_lit, mi_lit]
  refine mi_star_consume (by decide) ?_
  have hs : (d ++ '.' :: f) ++ r = c :: ((d' ++ '.' :: f) ++ r) := by
    rw [hdc]
    simp
  rw [hs]
  refine mi_star_exit (Or.inr ⟨c, _, rfl, pyWS_of_digit hcd⟩) ?_
  rw [← hs]
  exact numGroup1_match hd hdd hf hfd hr h

lemma seg2_match {L : Char} {rest : List RItem} {d f r : List Char}
    {acc res : List (List Char)} {cur : Option (List Char)}
    (hL : pyWS L = false)
    (hd : d ≠ []) (hdd : ∀ c ∈ d, digitRE c = true)
    (hf : f ≠ []) (hfd : ∀ c ∈ f, digitRE c = true)
    (hr : r = [] ∨ ∃ b r', r = b :: r' ∧ digitRE b = false)
    (h : matchItems rest r (acc ++ [d ++ '.' :: f]) none = some res) :
    matchItems (.cstar pyWS :: .lit L :: .lit ':' :: .cstar pyWS :: (numGroup2 ++ rest))
      (' ' :: L :: ':' :: ' ' :: ((d ++ '.' :: f) ++ r)) acc cur = some res := by
  obtain ⟨c, d', hdc⟩ := List.exists_cons_of_ne_nil hd
  have hcd : digitRE c = true := by
    rw [hdc] at hdd
    exact hdd c (List.mem_cons_self _ _)
  refine mi_star_consume (by decide) ?_
  refine mi_star_exit (Or.inr ⟨L, _, rfl, hL⟩) ?_
  rw [mi_lit, mi_lit]
  refine mi_star_consume (by decide) ?_
  have hs : (d ++ '.' :: f) ++ r = c :: ((d' ++ '.' :: f) ++ r) := by
    rw [hdc]
    simp
  rw [hs]
  refine mi_star_exit (Or.inr ⟨c, _, rfl, pyWS_of_digit hcd⟩) ?_
  rw [← hs]
  exact numGroup2_match hd hdd hf hfd hr h

lemma seg2_final {L : Char} {d f : List Char} {acc : List (List Char)}
    {cur : Option (List Char)}
    (hL : pyWS L = false)
    (hd : d ≠ []) (hdd : ∀ c ∈ d, digitRE c = true)
    (hf : f ≠ []) (hfd : ∀ c ∈ f, digitRE c = true) :
    matchItems (.cstar pyWS :: .lit L :: .lit ':' :: .cstar pyWS :: numGroup2)
      (' ' :: L :: ':' :: ' ' :: (d ++ '.' :: f)) acc cur
      = some (acc ++ [d ++ '.' :: f]) := by
  have h := @seg2_match L [] d f [] acc (acc ++ [d ++ '.' :: f]) cur
    hL hd hdd hf hfd (Or.inl rfl) (mi_done _ _ _)
  simpa using h

lemma head2_match {rest : List RItem} {d f r : List Char}
    {acc res : List (List Char)} {cur : Option (List Char)}
    (hd : d ≠ []) (hdd : ∀ c ∈ d, digitRE c = true)
    (hf : f ≠ []) (hfd : ∀ c ∈ f, digitRE c = true)
    (hr : r = [] ∨ ∃ b r', r = b :: r' ∧ digitRE b = false)
    (h : matchItems rest r (acc ++ [d ++ '.' :: f]) none = some res) :
    matchItems
      (.lit 'X' :: .copt (fun c => c = '.' || c = ':') :: .cstar pyWS :: (numGroup2 ++ rest))
      ('X' :: '.' :: ' ' :: ((d ++ '.' :: f) ++ r)) acc cur = some res := by
  obtain ⟨c, d', hdc⟩ := List.exists_cons_of_ne_nil hd
  have hcd : digitRE c = true := by
    rw [hdc] at hdd
    exact hdd c (List.mem_cons_self _ _)
  rw [mi_lit]
  refine mi_copt_consume (by decide) ?_
  refine mi_star_consume (by decide) ?_
  have hs : (d ++ '.' :: f) ++ r = c :: ((d' ++ '.' :: f) ++ r) := by
    rw [hdc]
    simp
  rw [hs]
  refine mi_star_exit (Or.inr ⟨c, _, rfl, pyWS_of_digit hcd⟩) ?_
  rw [← hs]
  exact numGroup2_match hd hdd hf hfd hr h

lemma p1_matches_colon {d1 f1 d2 f2 d3 f3 : List Char}
    (hd1 : d1 ≠ []) (hdd1 : ∀ c ∈ d1, digitRE c = true)
    (hf1 : f1 ≠ []) (hfd1 : ∀ c ∈ f1, digitRE c = true)
    (hd2 : d2 ≠ []) (hdd2 : ∀ c ∈ d2, digitRE c = true)
    (hf2 : f2 ≠ []) (hfd2 : ∀ c ∈ f2, digitRE c = true)
    (hd3 : d3 ≠ []) (hdd3 : ∀ c ∈ d3, digitRE c = true)
    (hf3 : f3 ≠ []) (hfd3 : ∀ c ∈ f3, digitRE c = true) :
    matchItems m114_pattern1
      (colonResp (d1 ++ '.' :: f1) (d2 ++ '.' :: f2) (d3 ++ '.' :: f3)) [] none
      = some [d1 ++ '.' :: f1, d2 ++ '.' :: f2, d3 ++ '.' :: f3] := by
  show matchItems
      (.lit 'X' :: .lit ':' :: .cstar pyWS :: (numGroup1 ++
        (.cstar pyWS :: .lit 'Y' :: .lit ':' :: .cstar pyWS :: (numGroup1 ++
          (.cstar pyWS :: .lit 'Z' :: .lit ':' :: .cstar pyWS :: numGroup1)))))
      ('X' :: ':' :: ' ' :: ((d1 ++ '.' :: f1) ++ (' ' :: 'Y' :: ':' :: ' ' ::
        ((d2 ++ '.' :: f2) ++ (' ' :: 'Z' :: ':' :: ' ' :: (d3 ++ '.' :: f3))))))
      [] none
      = some [d1 ++ '.' :: f1, d2 ++ '.' :: f2, d3 ++ '.' :: f3]
  refine head1_match hd1 hdd1 hf1 hfd1 (Or.inr ⟨' ', _, rfl, by decide⟩) ?_
  refine seg1_match (by decide) hd2 hdd2 hf2 hfd2 (Or.inr ⟨' ', _, rfl, by decide⟩) ?_
  exact seg1_final (by decide) hd3 hdd3 hf3 hfd3

lemma p2_matches_period {d1 f1 d2 f2 d3 f3 : List Char}
    (hd1 : d1 ≠ []) (hdd1 : ∀ c ∈ d1, digitRE c = true)
    (hf1 : f1 ≠ []) (hfd1 : ∀ c ∈ f1, digitRE c = true)
    (hd2 : d2 ≠ []) (hdd2 : ∀ c ∈ d2, digitRE c = true)
    (hf2 : f2 ≠ []) (hfd2 : ∀ c ∈ f2, digitRE c = true)
    (hd3 : d3 ≠ []) (hdd3 : ∀ c ∈ d3, digitRE c = true)
    (hf3 : f3 ≠ []) (hfd3 : ∀ c ∈ f3, digitRE c = true) :
    matchItems m114_pattern2
      (periodResp (d1 ++ '.' :: f1) (d2 ++ '.' :: f2) (d3 ++ '.' :: f3)) [] none
      = some [d1 ++ '.' :: f1, d2 ++ '.' :: f2, d3 ++ '.' :: f3] := by
  show matchItems
      (.lit 'X' :: .copt (fun c => c = '.' || c = ':') :: .cstar pyWS :: (numGroup2 ++
        (.cstar pyWS :: .lit 'Y' :: .lit ':' :: .cstar pyWS :: (numGroup2 ++
          (.cstar pyWS :: .lit 'Z' :: .lit ':' :: .cstar pyWS :: numGroup2)))))
      ('X' :: '.' :: ' ' :: ((d1 ++ '.' :: f1) ++ (' ' :: 'Y' :: ':' :: ' ' ::
        ((d2 ++ '.' :: f2) ++ (' ' :: 'Z' :: ':' :: ' ' :: (d3 ++ '.' :: f3))))))
      [] none
      = some [d1 ++ '.' :: f1, d2 ++ '.' :: f2, d3 ++ '.' :: f3]
  refine head2_match hd1 hdd1 hf1 hfd1 (Or.inr ⟨' ', _, rfl, by decide⟩) ?_
  refine seg2_match (by decide) hd2 hdd2 hf2 hfd2 (Or.inr ⟨' ', _, rfl, by decide⟩) ?_
  exact seg2_final (by decide) hd3 hdd3 hf3 hfd3

lemma noX_token {d f : List Char} (hdd : ∀ c ∈ d, digitRE c = true)
    (hfd : ∀ c ∈ f, digitRE c = true) : 'X' ∉ (d ++ '.' :: f) := by
  intro hmem
  rcases List.mem_append.mp hmem with hm | hm
  · exact absurd (hdd _ hm) (by decide)
  · rcases List.mem_cons.mp hm with he | hm'
    · exact absurd he (by decide)
    · exact absurd (hfd _ hm') (by decide)

lemma reSearch_p1_none {s : List Char}
    (h : ∀ b t, ('X' :: b :: t) <:+ s → b ≠ ':') :
    reSearch m114_pattern1 s = none := by
  refine reSearch_none fun s' hs' => ?_
  simp only [m114_pattern1, List.cons_append, List.nil_append, List.append_assoc]
  cases s' with
  | nil => exact mi_lit_nil
  | cons a t1 =>
      by_cases hA : a = 'X'
      · subst hA
        cases t1 with
        | nil =>
            rw [mi_lit]
            exact mi_lit_nil
        | cons b t2 =>
            have hb : b ≠ ':' := h b t2 hs'
            rw [mi_lit]
            exact mi_lit_ne hb
      · exact mi_lit_ne hA

lemma p1_none_on_period {d1 f1 d2 f2 d3 f3 : List Char}
    (hdd1 : ∀ c ∈ d1, digitRE c = true) (hfd1 : ∀ c ∈ f1, digitRE c = true)
    (hdd2 : ∀ c ∈ d2, digitRE c = true) (hfd2 : ∀ c ∈ f2, digitRE c = true)
    (hdd3 : ∀ c ∈ d3, digitRE c = true) (hfd3 : ∀ c ∈ f3, digitRE c = true) :
    reSearch m114_pattern1
      (periodResp (d1 ++ '.' :: f1) (d2 ++ '.' :: f2) (d3 ++ '.' :: f3)) = none := by
  have hnoX : 'X' ∉ ('.' :: ' ' :: ((d1 ++ '.' :: f1) ++ (' ' :: 'Y' :: ':' :: ' ' ::
      ((d2 ++ '.' :: f2) ++ (' ' :: 'Z' :: ':' :: ' ' :: (d3 ++ '.' :: f3)))))) := by
    intro hm
    rcases List.mem_cons.mp hm with he | hm
    · exact absurd he (by decide)
    rcases List.mem_cons.mp hm with he | hm
    · exact absurd he (by decide)
    rcases List.mem_append.mp hm with hm | hm
    · exact noX_token hdd1 hfd1 hm
    rcases List.mem_cons.mp hm with he | hm
    · exact absurd he (by decide)
    rcases List.mem_cons.mp hm with he | hm
    · exact absurd he (by decide)
    rcases List.mem_cons.mp hm with he | hm
    · exact absurd he (by decide)
    rcases List.mem_cons.mp hm with he | hm
    · exact absurd he (by decide)
    rcases List.mem_append.mp hm with hm | hm
    · exact noX_token hdd2 hfd2 hm
    rcases List.mem_cons.mp hm with he | hm
    · exact absurd he (by decide)
    rcases List.mem_cons.mp hm with he | hm
    · exact absurd he (by decide)
    rcases List.mem_cons.mp hm with he | hm
    · exact absurd he (by decide)
    rcases List.mem_cons.mp hm with he | hm
    · exact absurd he (by decide)
    exact noX_token hdd3 hfd3 hm
  refine reSearch_p1_none fun b t hsuf => ?_
  simp only [periodResp] at hsuf
  rcases List.suffix_cons_iff.mp hsuf with heq | hsuf'
  · have hb : b = '.' := by
      have h2 := congrArg (fun l => l.tail.head?) heq
      simpa using h2
    subst hb
    decide
  · exact absurd (hsuf'.subset (List.mem_cons_self _ _)) hnoX

/- ====================================================================
   Theorem: C7
   ==================================================================== -/

/-- C7: for every position triple written as decimal tokens `d.f` (sign
handling aside, the firmware's standard form), the colon label format
`X: a Y: b Z: c` and the period-after-X variant `X. a Y: b Z: c` parse
to the same (x, y, z) capture triple — the first via pattern 1, the
second via pattern 2 after pattern 1 finds no match anywhere in the
text; and every response text matched by neither pattern produces the
`ValueError` whose message carries the raw unparsed response verbatim,
never a partial or zero position. -/
theorem c7_position_formats (d1 f1 d2 f2 d3 f3 : List Char)
    (hd1 : d1 ≠ []) (hdd1 : ∀ c ∈ d1, digitRE c = true)
    (hf1 : f1 ≠ []) (hfd1 : ∀ c ∈ f1, digitRE c = true)
    (hd2 : d2 ≠ []) (hdd2 : ∀ c ∈ d2, digitRE c = true)
    (hf2 : f2 ≠ []) (hfd2 : ∀ c ∈ f2, digitRE c = true)
    (hd3 : d3 ≠ []) (hdd3 : ∀ c ∈ d3, digitRE c = true)
    (hf3 : f3 ≠ []) (hfd3 : ∀ c ∈ f3, digitRE c = true) :
    get_position_parse (colonResp (d1 ++ '.' :: f1) (d2 ++ '.' :: f2) (d3 ++ '.' :: f3))
        = .ok (d1 ++ '.' :: f1, d2 ++ '.' :: f2, d3 ++ '.' :: f3) ∧
      get_position_parse (periodResp (d1 ++ '.' :: f1) (d2 ++ '.' :: f2) (d3 ++ '.' :: f3))
        = .ok (d1 ++ '.' :: f1, d2 ++ '.' :: f2, d3 ++ '.' :: f3) ∧
      (∀ resp : List Char, reSearch m114_pattern1 resp = none →
        reSearch m114_pattern2 resp = none →
        get_position_parse resp = .error (m114_err_front ++ resp ++ m114_err_suffix)) := by
  refine ⟨?_, ?_, ?_⟩
  · have hm := p1_matches_colon hd1 hdd1 hf1 hfd1 hd2 hdd2 hf2 hfd2 hd3 hdd3 hf3 hfd3
    have hs := reSearch_of_match hm
    simp [get_position_parse, hs]
  · have hnone := p1_none_on_period hdd1 hfd1 hdd2 hfd2 hdd3 hfd3
    have hm := p2_matches_period hd1 hdd1 hf1 hfd1 hd2 hdd2 hf2 hfd2 hd3 hdd3 hf3 hfd3
    have hs := reSearch_of_match hm
    simp [get_position_parse, hnone, hs]
  · intro resp h1 h2
    simp [get_position_parse, h1, h2]

/-- Witness for `c7_position_formats`: the spec's example triple
`10.00 / 5.00 / 0.00`; both `X: 10.00 Y: 5.00 Z: 0.00` and
`X. 10.00 Y: 5.00 Z: 0.00` parse to the same captures. -/
theorem c7_position_formats_witness :
    get_position_parse
        (colonResp (['1', '0'] ++ '.' :: ['0', '0']) (['5'] ++ '.' :: ['0', '0'])
          (['0'] ++ '.' :: ['0', '0']))
        = .ok (['1', '0'] ++ '.' :: ['0', '0'], ['5'] ++ '.' :: ['0', '0'],
            ['0'] ++ '.' :: ['0', '0']) ∧
      get_position_parse
        (periodResp (['1', '0'] ++ '.' :: ['0', '0']) (['5'] ++ '.' :: ['0', '0'])
          (['0'] ++ '.' :: ['0', '0']))
        = .ok (['1', '0'] ++ '.' :: ['0', '0'], ['5'] ++ '.' :: ['0', '0'],
            ['0'] ++ '.' :: ['0', '0']) ∧
      (∀ resp : List Char, reSearch m114_pattern1 resp = none →
        reSearch m114_pattern2 resp = none →
        get_position_parse resp = .error (m114_err_front ++ resp ++ m114_err_suffix)) :=
  c7_position_formats ['1', '0'] ['0', '0'] ['5'] ['0', '0'] ['0'] ['0', '0']
    (by decide) (by decide) (by decide) (by decide) (by decide) (by decide)
    (by decide) (by decide) (by decide) (by decide) (by decide) (by decide)
